import Mathlib

/-!
Shallow embedding of `src/contract.rs` of the auction-house contract.

Addresses (`cosmwasm_std::Addr`) are newtypes over strings whose equality and
display are string equality, so they are modelled as `String`.  The persisted
store holds two `Item`s, `OWNERS : Item<Vec<Addr>>` and
`AUCTIONS : Item<Vec<...>>`; an `Item` that was never saved fails to `load`
with a not-found error, so each slot is modelled as an `Option`.  Auction
records are opaque to this contract (only the collection is tracked), so a
stand-in type is used for them.

The host's address validator (`deps.api.addr_validate`) is an external
collaborator and is passed in as a boolean predicate `valid`.  Each entry
point is modelled as a function from the incoming storage to the pair of the
storage as mutated by the `save` calls executed before the function returned,
together with `Except` of the returned error or `Response`; an error return
therefore shows exactly which writes (if any) preceded it.
-/

/-- Bech32 account address; `Addr` compares and displays as its string. -/
abbrev Addr := String

/-- Opaque stand-in for an auction record; this contract never inspects one. -/
abbrev Auction := Nat

/-- Errors surfaced by the contract: `invalidAddress` is the `StdError` from
`addr_validate` on a malformed address, `notFound` the `StdError` from loading
a never-saved `Item`, and `unauthorized` / `noOwner` are the variants of
`ContractError`. -/
inductive ContractError where
  | invalidAddress
  | notFound
  | unauthorized
  | noOwner
deriving DecidableEq, Repr

instance {ε α : Type} [DecidableEq ε] [DecidableEq α] : DecidableEq (Except ε α) :=
  fun a b =>
    match a, b with
    | .ok x, .ok y =>
        if h : x = y then isTrue (by rw [h])
        else isFalse (by intro hc; cases hc; exact h rfl)
    | .error x, .error y =>
        if h : x = y then isTrue (by rw [h])
        else isFalse (by intro hc; cases hc; exact h rfl)
    | .ok _, .error _ => isFalse (by intro hc; cases hc)
    | .error _, .ok _ => isFalse (by intro hc; cases hc)

/-- The two Archway custom messages this contract emits. -/
inductive ArchwayMsg where
  | updateRewardsAddress (rewardsAddress : Addr)
  | withdrawRewardsByLimit (limit : Nat)
deriving DecidableEq, Repr

/-- The parts of `cosmwasm_std::Response` the contract populates: outbound
messages and attribute key/value pairs. -/
structure Response where
  messages : List ArchwayMsg
  attributes : List (String × String)
deriving DecidableEq, Repr

def Response.new : Response := ⟨[], []⟩

def Response.addMessage (r : Response) (m : ArchwayMsg) : Response :=
  { r with messages := r.messages ++ [m] }

def Response.addAttribute (r : Response) (k v : String) : Response :=
  { r with attributes := r.attributes ++ [(k, v)] }

/-- The persisted state: the `OWNERS` item and the `AUCTIONS` item, each
`none` while never saved.  The contract-version record written by
`set_contract_version` is informational and outside the modelled state. -/
structure Storage where
  owners : Option (List Addr)
  auctions : Option (List Auction)
deriving DecidableEq, Repr

/-- The owner list as stored, defaulting to `[]` when `OWNERS` was never
saved (used only to state theorems, never by the modelled code). -/
def Storage.storedOwners (st : Storage) : List Addr := st.owners.getD []

/-- `instantiate` (contract.rs:9-28): validates the sender, loads `OWNERS`,
pushes the sender onto it, saves it back, and saves an empty `AUCTIONS`
collection. -/
def instantiate (valid : Addr → Bool) (st : Storage) (sender : Addr) :
    Storage × Except ContractError Response :=
  if !(valid sender) then (st, .error .invalidAddress) else
  match st.owners with
  | none => (st, .error .notFound)
  | some owners =>
    let owners := owners ++ [sender]
    let st := { st with owners := some owners }
    let st := { st with auctions := some ([] : List Auction) }
    (st, .ok (Response.new
      |>.addAttribute "action" "Instantiating Action House"
      |>.addAttribute "Owner" sender))

/-- `exec::update_rewards_address` (contract.rs:95-115): validates the
sender, loads `OWNERS`, requires membership, then emits one
`update_rewards_address` message.  The target address is never validated. -/
def update_rewards_address (valid : Addr → Bool) (st : Storage)
    (sender rewards_address : Addr) : Storage × Except ContractError Response :=
  if !(valid sender) then (st, .error .invalidAddress) else
  match st.owners with
  | none => (st, .error .notFound)
  | some owners =>
    if !(owners.contains sender) then (st, .error .unauthorized) else
    (st, .ok (Response.new
      |>.addMessage (ArchwayMsg.updateRewardsAddress rewards_address)
      |>.addAttribute "method" "update_rewards_address"))

/-- `exec::withdraw_rewards` (contract.rs:117-136): validates the sender,
loads `OWNERS`, requires membership, then emits one
`withdraw_rewards_by_limit(0)` message (`0` is the unbounded-limit
sentinel). -/
def withdraw_rewards (valid : Addr → Bool) (st : Storage) (sender : Addr) :
    Storage × Except ContractError Response :=
  if !(valid sender) then (st, .error .invalidAddress) else
  match st.owners with
  | none => (st, .error .notFound)
  | some owners =>
    if !(owners.contains sender) then (st, .error .unauthorized) else
    (st, .ok (Response.new
      |>.addMessage (ArchwayMsg.withdrawRewardsByLimit 0)
      |>.addAttribute "method" "withdraw_rewards"))

/-- `exec::add_owner` (contract.rs:138-161): validates both addresses, loads
`OWNERS`, requires the sender be a member, pushes `new_owner` only when not
already present, and saves. -/
def add_owner (valid : Addr → Bool) (st : Storage)
    (sender new_owner : Addr) : Storage × Except ContractError Response :=
  if !(valid sender) then (st, .error .invalidAddress) else
  if !(valid new_owner) then (st, .error .invalidAddress) else
  match st.owners with
  | none => (st, .error .notFound)
  | some owners =>
    if !(owners.contains sender) then (st, .error .unauthorized) else
    let owners := if !(owners.contains new_owner) then owners ++ [new_owner] else owners
    ({ st with owners := some owners },
     .ok (Response.new.addAttribute "method" "add_owner"))

/-- `exec::remove_owner` (contract.rs:163-188): validates both addresses,
loads `OWNERS`, requires the sender be a member, retains the entries whose
string form differs from `old_owner`'s (string equality is address equality),
errors with `NoOwner` if the result is empty, and otherwise saves. -/
def remove_owner (valid : Addr → Bool) (st : Storage)
    (sender old_owner : Addr) : Storage × Except ContractError Response :=
  if !(valid sender) then (st, .error .invalidAddress) else
  if !(valid old_owner) then (st, .error .invalidAddress) else
  match st.owners with
  | none => (st, .error .notFound)
  | some owners =>
    if !(owners.contains sender) then (st, .error .unauthorized) else
    let owners := owners.filter (fun value => value != old_owner)
    if owners.isEmpty then (st, .error .noOwner) else
    ({ st with owners := some owners },
     .ok (Response.new.addAttribute "method" "remove_owner"))

/-- A coin: denomination and amount (`Uint128`, modelled unbounded — the
contract only ever sums amounts and a sum of `u128`s cannot overflow the
host's arbitrary-precision `Uint128` arithmetic in the quantities at play;
no claim depends on wrap-around). -/
structure Coin where
  denom : String
  amount : Nat
deriving DecidableEq, Repr

/-- One rewards record returned by the host; the contract reads only the
`rewards` coins (the record's id, address and height fields are never
consulted, so they are omitted). -/
structure RewardsRecord where
  rewards : List Coin
deriving DecidableEq, Repr

/-- Pagination info of the host response; `outstanding_rewards` reads only
`total`. -/
structure PageResponse where
  nextKey : Option String
  total : Option Nat
deriving DecidableEq, Repr

/-- The host's answer to the paginated rewards-records query. -/
structure RewardsRecordsResponse where
  records : List RewardsRecord
  pagination : Option PageResponse
deriving DecidableEq, Repr

/-- The contract's `OutstandingRewardsResponse` message. -/
structure OutstandingRewardsResponse where
  rewards_balance : List Coin
  total_records : Nat
deriving DecidableEq, Repr

/-- Lexicographic order on character lists; `Rust` compares `String`s
byte-lexicographically, which agrees with this on the denominations at
play. -/
def charListLe : List Char → List Char → Bool
  | [], _ => true
  | _ :: _, [] => false
  | a :: as, b :: bs => if a = b then charListLe as bs else decide (a < b)

/-- `≤` on denominations, as `Rust`'s `str::cmp` orders them. -/
def denomLe (a b : String) : Bool := charListLe a.data b.data

/-- Insert a coin into a list already sorted by denomination (ascending). -/
def insertByDenom (c : Coin) : List Coin → List Coin
  | [] => [c]
  | d :: ds => if denomLe c.denom d.denom then c :: d :: ds else d :: insertByDenom c ds

/-- Sort coins by denomination (insertion sort). -/
def sortByDenom : List Coin → List Coin
  | [] => []
  | c :: cs => insertByDenom c (sortByDenom cs)

/-- Accumulate a run of equal-denomination coins into its first coin. -/
def mergeDenomRunsGo (c : Coin) : List Coin → List Coin
  | [] => [c]
  | d :: rest =>
    if c.denom == d.denom then
      mergeDenomRunsGo ⟨c.denom, c.amount + d.amount⟩ rest
    else
      c :: mergeDenomRunsGo d rest

/-- Merge adjacent coins sharing a denomination, summing the amounts into
the first coin of the run. -/
def mergeDenomRuns : List Coin → List Coin
  | [] => []
  | c :: rest => mergeDenomRunsGo c rest

/-- `cw_utils::NativeBalance::normalize`, the external balance utility the
spec defers to: drop zero amounts, sort by denomination, then merge entries
sharing a denomination. -/
def normalizeBalance (coins : List Coin) : List Coin :=
  mergeDenomRuns (sortByDenom (coins.filter (fun c => c.amount != 0)))

/-- `query::outstanding_rewards` (contract.rs:60-86) as a function of the
host's answer to the rewards-records query it sends: flatten every record's
reward coins into one balance, normalize it, and report the pagination total
(`0` when the host reports none). -/
def outstanding_rewards (response : RewardsRecordsResponse) : OutstandingRewardsResponse :=
  let rewards_coins := response.records.flatMap (fun r => r.rewards)
  let rewards_balance := normalizeBalance rewards_coins
  let total_records := (response.pagination.bind (fun p => p.total)).getD 0
  { rewards_balance := rewards_balance, total_records := total_records }

/-- An owner-set mutating call — `add_owner` or `remove_owner` — with its
caller and target. -/
inductive OwnerCmd where
  | add (sender new_owner : Addr)
  | remove (sender old_owner : Addr)
deriving DecidableEq, Repr

def OwnerCmd.sender : OwnerCmd → Addr
  | .add s _ => s
  | .remove s _ => s

/-- Run one owner-set call against the storage, keeping the storage the call
left behind whether it succeeded or failed. -/
def execCmd (valid : Addr → Bool) (st : Storage) : OwnerCmd → Storage
  | .add s n => (add_owner valid st s n).1
  | .remove s o => (remove_owner valid st s o).1

/-- Run a sequence of owner-set calls left to right. -/
def execCmds (valid : Addr → Bool) : List OwnerCmd → Storage → Storage
  | [], st => st
  | c :: cs, st => execCmds valid cs (execCmd valid st c)

/-- Every caller in the sequence is a member of the owner set current at the
moment of its call. -/
def callersMembers (valid : Addr → Bool) : List OwnerCmd → Storage → Bool
  | [], _ => true
  | c :: cs, st =>
    (st.storedOwners).contains c.sender && callersMembers valid cs (execCmd valid st c)

/-- The stored owner set exists and is non-empty. -/
def ownersNonempty (st : Storage) : Bool := !(st.storedOwners).isEmpty

/-- The stored owner set (when present) has no duplicate entries. -/
def ownersNodup (st : Storage) : Bool :=
  match st.owners with
  | some l => decide l.Nodup
  | none => true

/-! ## Helper lemmas -/

theorem contains_eq_true {l : List Addr} {a : Addr} (h : a ∈ l) :
    l.contains a = true := by
  simp [List.contains, h]

theorem contains_eq_false {l : List Addr} {a : Addr} (h : a ∉ l) :
    l.contains a = false := by
  simp [List.contains, h]

theorem storage_eta {st : Storage} {l : List Addr} (h : st.owners = some l) :
    ({ st with owners := some l } : Storage) = st := by
  cases st
  cases h
  rfl

theorem ownersNodup_some {st : Storage} {l : List Addr} (hl : st.owners = some l) :
    ownersNodup st = true ↔ l.Nodup := by
  simp [ownersNodup, hl]

/-! ## Claim theorems -/

/-- C7: a caller in the stored owner set makes `update_rewards_address`
succeed; the response carries exactly one set-reward-address outbound message
for the given target, and the persisted state is returned untouched. -/
theorem update_rewards_address_member_one_message (valid : Addr → Bool) (st : Storage)
    (sender target : Addr) (l : List Addr)
    (hs : valid sender = true) (hl : st.owners = some l) (hmem : sender ∈ l) :
    update_rewards_address valid st sender target =
      (st, .ok ⟨[ArchwayMsg.updateRewardsAddress target],
        [("method", "update_rewards_address")]⟩) := by
  simp [update_rewards_address, hs, hl, hmem,
    Response.new, Response.addMessage, Response.addAttribute]

theorem update_rewards_address_member_one_message_witness :
    update_rewards_address (fun _ => true) ⟨some ["archway1owner"], some []⟩
        "archway1owner" "archway1target" =
      (⟨some ["archway1owner"], some []⟩,
       .ok ⟨[ArchwayMsg.updateRewardsAddress "archway1target"],
        [("method", "update_rewards_address")]⟩) :=
  update_rewards_address_member_one_message (fun _ => true) _ _ _ ["archway1owner"]
    rfl rfl (by decide)

/-- C8: a caller in the stored owner set makes `withdraw_rewards` succeed;
the response carries exactly one withdraw-rewards outbound message with the
unbounded-limit sentinel `0`, and the persisted state is returned
untouched. -/
theorem withdraw_rewards_member_one_message (valid : Addr → Bool) (st : Storage)
    (sender : Addr) (l : List Addr)
    (hs : valid sender = true) (hl : st.owners = some l) (hmem : sender ∈ l) :
    withdraw_rewards valid st sender =
      (st, .ok ⟨[ArchwayMsg.withdrawRewardsByLimit 0],
        [("method", "withdraw_rewards")]⟩) := by
  simp [withdraw_rewards, hs, hl, hmem,
    Response.new, Response.addMessage, Response.addAttribute]

theorem withdraw_rewards_member_one_message_witness :
    withdraw_rewards (fun _ => true) ⟨some ["archway1owner"], some []⟩ "archway1owner" =
      (⟨some ["archway1owner"], some []⟩,
       .ok ⟨[ArchwayMsg.withdrawRewardsByLimit 0], [("method", "withdraw_rewards")]⟩) :=
  withdraw_rewards_member_one_message (fun _ => true) _ _ ["archway1owner"]
    rfl rfl (by decide)

/-- C5: `add_owner` is idempotent — an authorized caller adding an address
already in the stored owner set succeeds and the persisted state after the
call equals the state before it. -/
theorem add_owner_idempotent (valid : Addr → Bool) (st : Storage)
    (sender new_owner : Addr) (l : List Addr)
    (hs : valid sender = true) (hn : valid new_owner = true)
    (hl : st.owners = some l) (hmem : sender ∈ l) (hin : new_owner ∈ l) :
    add_owner valid st sender new_owner =
      (st, .ok ⟨[], [("method", "add_owner")]⟩) := by
  simp [add_owner, hs, hn, hl, hmem, hin,
    storage_eta hl, Response.new, Response.addAttribute]

theorem add_owner_idempotent_witness :
    add_owner (fun _ => true) ⟨some ["archway1a", "archway1b"], some []⟩
        "archway1a" "archway1b" =
      (⟨some ["archway1a", "archway1b"], some []⟩,
       .ok ⟨[], [("method", "add_owner")]⟩) :=
  add_owner_idempotent (fun _ => true) _ _ _ ["archway1a", "archway1b"]
    rfl rfl rfl (by decide) (by decide)

/-- C6: `remove_owner` by an authorized caller on a well-formed target not in
the stored owner set succeeds and the persisted state after the call equals
the state before it (the set stays non-empty because the caller stays). -/
theorem remove_owner_nonmember_noop (valid : Addr → Bool) (st : Storage)
    (sender old_owner : Addr) (l : List Addr)
    (hs : valid sender = true) (ho : valid old_owner = true)
    (hl : st.owners = some l) (hmem : sender ∈ l) (hnot : old_owner ∉ l) :
    remove_owner valid st sender old_owner =
      (st, .ok ⟨[], [("method", "remove_owner")]⟩) := by
  have hfilter : l.filter (fun value => value != old_owner) = l := by
    rw [List.filter_eq_self]
    intro a ha
    rw [bne_iff_ne]
    intro hEq
    exact hnot (hEq ▸ ha)
  have hne : l.isEmpty = false := by
    rw [List.isEmpty_eq_false]
    exact List.ne_nil_of_mem hmem
  simp [remove_owner, hs, ho, hl, hmem, hfilter, hne,
    storage_eta hl, Response.new, Response.addAttribute]

theorem remove_owner_nonmember_noop_witness :
    remove_owner (fun _ => true) ⟨some ["archway1a"], some []⟩
        "archway1a" "archway1b" =
      (⟨some ["archway1a"], some []⟩, .ok ⟨[], [("method", "remove_owner")]⟩) :=
  remove_owner_nonmember_noop (fun _ => true) _ _ _ ["archway1a"]
    rfl rfl rfl (by decide) (by decide)

/-- C10: `update_rewards_address` never consults the validator on the target
address — two validators that agree on the caller give identical results for
any target — and with an authorized caller the call succeeds and embeds the
target verbatim in the outbound message even when the validator rejects the
target. -/
theorem update_rewards_address_target_unvalidated
    (valid₁ valid₂ : Addr → Bool) (st : Storage) (sender target : Addr)
    (hagree : valid₁ sender = valid₂ sender) :
    update_rewards_address valid₁ st sender target =
      update_rewards_address valid₂ st sender target ∧
    (∀ l : List Addr, valid₁ sender = true → st.owners = some l → sender ∈ l →
      valid₁ target = false →
      update_rewards_address valid₁ st sender target =
        (st, .ok ⟨[ArchwayMsg.updateRewardsAddress target],
          [("method", "update_rewards_address")]⟩)) := by
  constructor
  · simp [update_rewards_address, hagree]
  · intro l hs hl hmem _
    simp [update_rewards_address, hs, hl, hmem,
      Response.new, Response.addMessage, Response.addAttribute]

theorem update_rewards_address_target_unvalidated_witness :
    update_rewards_address (fun a => a == "archway1owner")
        ⟨some ["archway1owner"], some []⟩ "archway1owner" "***not-an-address***" =
      (⟨some ["archway1owner"], some []⟩,
       .ok ⟨[ArchwayMsg.updateRewardsAddress "***not-an-address***"],
        [("method", "update_rewards_address")]⟩) :=
  (update_rewards_address_target_unvalidated (fun a => a == "archway1owner")
      (fun a => a == "archway1owner") ⟨some ["archway1owner"], some []⟩
      "archway1owner" "***not-an-address***" rfl).2
    ["archway1owner"] (by decide) rfl (by decide) (by decide)

/-- C2: with well-formed addresses and a stored owner set, every privileged
operation called by a caller outside the set fails with `Unauthorized` and
returns the storage untouched; moreover every failing privileged call —
whatever the error — returns the storage exactly as it found it and carries
no response, hence no outbound message. -/
theorem privileged_unauthorized_no_effect (valid : Addr → Bool) (st : Storage)
    (sender target : Addr) (l : List Addr)
    (hs : valid sender = true) (ht : valid target = true)
    (hl : st.owners = some l) (hmem : sender ∉ l) :
    (update_rewards_address valid st sender target = (st, .error .unauthorized) ∧
     withdraw_rewards valid st sender = (st, .error .unauthorized) ∧
     add_owner valid st sender target = (st, .error .unauthorized) ∧
     remove_owner valid st sender target = (st, .error .unauthorized)) ∧
    (∀ (s t : Addr) (st' : Storage) (e : ContractError),
      (update_rewards_address valid st s t = (st', .error e) → st' = st) ∧
      (withdraw_rewards valid st s = (st', .error e) → st' = st) ∧
      (add_owner valid st s t = (st', .error e) → st' = st) ∧
      (remove_owner valid st s t = (st', .error e) → st' = st)) := by
  refine ⟨⟨?_, ?_, ?_, ?_⟩, ?_⟩
  · simp [update_rewards_address, hs, hl, hmem]
  · simp [withdraw_rewards, hs, hl, hmem]
  · simp [add_owner, hs, ht, hl, hmem]
  · simp [remove_owner, hs, ht, hl, hmem]
  · intro s t st' e
    refine ⟨?_, ?_, ?_, ?_⟩ <;> intro h
    · unfold update_rewards_address at h
      repeat' split at h
      all_goals simp_all
    · unfold withdraw_rewards at h
      repeat' split at h
      all_goals simp_all
    · unfold add_owner at h
      repeat' split at h
      all_goals simp_all
    · unfold remove_owner at h
      repeat' split at h
      all_goals try simp_all
      all_goals (split at h <;> simp_all)

theorem privileged_unauthorized_no_effect_witness :
    update_rewards_address (fun _ => true) ⟨some ["archway1a"], some []⟩
        "archway1b" "archway1r" =
      (⟨some ["archway1a"], some []⟩, .error .unauthorized) :=
  ((privileged_unauthorized_no_effect (fun _ => true) ⟨some ["archway1a"], some []⟩
      "archway1b" "archway1r" ["archway1a"] rfl rfl rfl (by decide)).1).1

/-- C3 (code bug): on a fresh contract store — the state in which the host
runs `instantiate` — the code loads `OWNERS` before ever saving it, so for a
well-formed deployer `instantiate` fails with the not-found error instead of
seeding `OwnerSet = [deployer]` and `OpenAuctions = []`. -/
theorem instantiate_fresh_storage_fails :
    instantiate (fun _ => true) ⟨none, none⟩ "archway1deployer" =
      (⟨none, none⟩, .error .notFound) := by
  decide

/-- C9: `outstanding_rewards` flattens every reward coin of every host
record into one balance and normalizes it, and reports the host's pagination
total, `0` when the host reports none; on the two-record `uarch` 5 + 3
scenario with total `2` it answers balance `[uarch 8]` and `total_records =
2`. -/
theorem outstanding_rewards_flatten_normalize :
    outstanding_rewards ⟨[⟨[⟨"uarch", 5⟩]⟩, ⟨[⟨"uarch", 3⟩]⟩], some ⟨none, some 2⟩⟩ =
      ⟨[⟨"uarch", 8⟩], 2⟩ ∧
    (∀ resp : RewardsRecordsResponse,
      (outstanding_rewards resp).rewards_balance =
        normalizeBalance (resp.records.flatMap (fun r => r.rewards))) ∧
    (∀ records : List RewardsRecord,
      (outstanding_rewards ⟨records, none⟩).total_records = 0) ∧
    (∀ (records : List RewardsRecord) (key : Option String),
      (outstanding_rewards ⟨records, some ⟨key, none⟩⟩).total_records = 0) ∧
    (∀ (records : List RewardsRecord) (key : Option String) (n : Nat),
      (outstanding_rewards ⟨records, some ⟨key, some n⟩⟩).total_records = n) := by
  refine ⟨by decide, ?_, ?_, ?_, ?_⟩ <;> intros <;> rfl

/-! ## Owner-set invariants over call sequences -/

theorem execCmd_preserves_nonempty (valid : Addr → Bool) (st : Storage) (c : OwnerCmd)
    (h : ownersNonempty st = true) : ownersNonempty (execCmd valid st c) = true := by
  cases c with
  | add s n =>
    unfold execCmd add_owner
    repeat' split
    all_goals try exact h
    all_goals simp_all [ownersNonempty, Storage.storedOwners]
  | remove s o =>
    unfold execCmd remove_owner
    repeat' split
    all_goals try exact h
    all_goals simp_all [ownersNonempty, Storage.storedOwners]
    all_goals try (split <;> simp_all)

theorem execCmds_preserves_nonempty (valid : Addr → Bool) (cmds : List OwnerCmd)
    (st : Storage) (h : ownersNonempty st = true) :
    ownersNonempty (execCmds valid cmds st) = true := by
  induction cmds generalizing st with
  | nil => exact h
  | cons c cs ih => exact ih (execCmd valid st c) (execCmd_preserves_nonempty valid st c h)

/-- C1: from a stored non-empty owner set, a sequence of
`add_owner`/`remove_owner` calls whose callers are members of the owner set
current at their call leaves the owner set non-empty after every call (that
is, after every prefix of the sequence); and a `remove_owner` whose retain
step would empty the set aborts with `NoOwner`, returning the storage
untouched. -/
theorem owner_set_never_empty (valid : Addr → Bool) (cmds : List OwnerCmd) (st : Storage)
    (h0 : ownersNonempty st = true)
    (hmem : callersMembers valid cmds st = true) :
    (∀ pre suf : List OwnerCmd, cmds = pre ++ suf →
      ownersNonempty (execCmds valid pre st) = true) ∧
    (∀ (sender old_owner : Addr) (l : List Addr),
      valid sender = true → valid old_owner = true →
      st.owners = some l → sender ∈ l →
      (l.filter (fun value => value != old_owner)).isEmpty = true →
      remove_owner valid st sender old_owner = (st, .error .noOwner)) := by
  constructor
  · intro pre suf hsplit
    exact execCmds_preserves_nonempty valid pre st h0
  · intro sender old_owner l hs ho hl hml hempty
    simp [remove_owner, hs, ho, hl, hml, hempty]

theorem owner_set_never_empty_witness :
    ownersNonempty (execCmds (fun _ => true)
      [.add "archway1a" "archway1b", .remove "archway1b" "archway1a"]
      ⟨some ["archway1a"], some []⟩) = true :=
  (owner_set_never_empty (fun _ => true)
      [.add "archway1a" "archway1b", .remove "archway1b" "archway1a"]
      ⟨some ["archway1a"], some []⟩ (by decide) (by decide)).1
    [.add "archway1a" "archway1b", .remove "archway1b" "archway1a"] [] rfl

/-! ## Distinctness of the stored owner set -/

theorem add_owner_ok_inv (valid : Addr → Bool) (st st' : Storage) (r : Response)
    (a b : Addr) (h : add_owner valid st a b = (st', .ok r)) :
    ∃ l, st.owners = some l ∧
      st' = { st with owners := some (if !(l.contains b) then l ++ [b] else l) } := by
  unfold add_owner at h
  repeat' split at h
  all_goals simp_all

theorem remove_owner_ok_inv (valid : Addr → Bool) (st st' : Storage) (r : Response)
    (a b : Addr) (h : remove_owner valid st a b = (st', .ok r)) :
    ∃ l, st.owners = some l ∧
      st' = { st with owners := some (l.filter (fun value => value != b)) } := by
  unfold remove_owner at h
  repeat' split at h
  all_goals try simp_all
  all_goals (split at h <;> simp_all)

theorem instantiate_ok_inv (valid : Addr → Bool) (st st' : Storage) (r : Response)
    (a : Addr) (h : instantiate valid st a = (st', .ok r)) :
    ∃ l, st.owners = some l ∧ st' = ⟨some (l ++ [a]), some []⟩ := by
  unfold instantiate at h
  repeat' split at h
  all_goals simp_all

theorem nodup_append_singleton {l : List Addr} {a : Addr}
    (h : l.Nodup) (hn : a ∉ l) : (l ++ [a]).Nodup := by
  rw [List.nodup_append]
  refine ⟨h, List.nodup_singleton a, ?_⟩
  intro x hx hxa
  rw [List.mem_singleton] at hxa
  subst hxa
  exact hn hx

/-- C4 counterexample: with `OWNERS` already stored as `["archway1a"]`,
`instantiate` called with the same address succeeds yet persists a
duplicated owner list, so instantiate's seeding does not preserve
distinctness as claimed. -/
theorem instantiate_duplicate_counterexample :
    (instantiate (fun _ => true) ⟨some ["archway1a"], some []⟩ "archway1a").1.owners =
      some ["archway1a", "archway1a"] ∧
    (instantiate (fun _ => true) ⟨some ["archway1a"], some []⟩ "archway1a").2 =
      .ok ⟨[], [("action", "Instantiating Action House"), ("Owner", "archway1a")]⟩ ∧
    ownersNodup (instantiate (fun _ => true) ⟨some ["archway1a"], some []⟩ "archway1a").1 =
      false := by
  decide

/-- C4 (amended): successful `add_owner` and `remove_owner` calls preserve
distinctness of the stored owner set, and `instantiate` — which as coded
appends the deployer unconditionally to the previously stored list —
preserves it exactly when the deployer is not already among the stored
owners. -/
theorem owners_nodup_preserved (valid : Addr → Bool) (st st' : Storage) (r : Response)
    (a b : Addr) (h : ownersNodup st = true) :
    (add_owner valid st a b = (st', .ok r) → ownersNodup st' = true) ∧
    (remove_owner valid st a b = (st', .ok r) → ownersNodup st' = true) ∧
    (a ∉ st.storedOwners → instantiate valid st a = (st', .ok r) →
      ownersNodup st' = true) := by
  refine ⟨?_, ?_, ?_⟩
  · intro hc
    obtain ⟨l, hl, hst⟩ := add_owner_ok_inv valid st st' r a b hc
    subst hst
    have hnd : l.Nodup := (ownersNodup_some hl).mp h
    rw [ownersNodup_some rfl]
    split
    · rename_i hb
      exact nodup_append_singleton hnd (by simpa using hb)
    · exact hnd
  · intro hc
    obtain ⟨l, hl, hst⟩ := remove_owner_ok_inv valid st st' r a b hc
    subst hst
    have hnd : l.Nodup := (ownersNodup_some hl).mp h
    rw [ownersNodup_some rfl]
    exact hnd.filter _
  · intro hnotin hc
    obtain ⟨l, hl, hst⟩ := instantiate_ok_inv valid st st' r a hc
    subst hst
    have hnd : l.Nodup := (ownersNodup_some hl).mp h
    rw [Storage.storedOwners, hl] at hnotin
    rw [ownersNodup_some rfl]
    exact nodup_append_singleton hnd hnotin

theorem owners_nodup_preserved_witness :
    ownersNodup ⟨some ["archway1a", "archway1b"], some []⟩ = true :=
  (owners_nodup_preserved (fun _ => true) ⟨some ["archway1a"], some []⟩
      ⟨some ["archway1a", "archway1b"], some []⟩ ⟨[], [("method", "add_owner")]⟩
      "archway1a" "archway1b" (by decide)).1 (by decide)
